import Mathlib

/-!
Verification of the mosaic analysis pipeline (Go): a shallow embedding of
`calcAvg`, `openImage`, `worker` and the collecting loop of `analyzeFiles`,
together with theorems about the properties the design document states.

Modelling conventions:
* Go's `image.Image` is a record of its bounds and its `At` pixel function;
  `At x y` directly yields the quadruple that `img.At(x, y).RGBA()` returns
  (alpha-premultiplied, each channel in `[0, 0xFFFF]` for any colour that
  honours the `color.Color` contract — that bound is the `Image.Wf`
  predicate, a hypothesis where a theorem needs it).
* Machine integers are modelled as `Nat`.  The Go accumulators are `int64`;
  since every addend is at most `0xFFFF`, the `int64` sums cannot overflow
  for any region of fewer than `2^47` pixels, so the unbounded `Nat` sum
  agrees with the source throughout the range the design contemplates.
  `uint16(-)` and `uint8(-)` conversions are `% 2^16` and `% 2^8`.
* Go's integer division by zero is a runtime panic; `calcAvg` therefore
  returns an `Option`, with `none` standing for the panic.
* The filesystem and codec collaborators (`os.Open`, `png.Decode`,
  `jpeg.Decode`) are a record of outcome functions, a parameter of
  `openImage`.
* Concurrency: each worker processes its received paths one at a time and
  `workerStep` is a pure function of the path, so the multiset of results
  the collector receives is exactly the per-path results of the input list;
  the race-determined arrival order is a `List.Perm` side condition.
-/

/-- The quadruple returned by Go's `Color.RGBA()`: alpha-premultiplied
channels, nominally in `[0, 0xFFFF]`. -/
structure RGBAQuad where
  r : Nat
  g : Nat
  b : Nat
  a : Nat
deriving Repr, DecidableEq

/-- Go's `color.RGBA64`: four `uint16` fields. -/
structure RGBA64 where
  R : Nat
  G : Nat
  B : Nat
  A : Nat
deriving Repr, DecidableEq

/-- Go's `color.NRGBA`: four `uint8` fields (non-alpha-premultiplied). -/
structure NRGBA where
  R : Nat
  G : Nat
  B : Nat
  A : Nat
deriving Repr, DecidableEq

/-- Go's `image.Point`. -/
structure Point where
  X : Int
  Y : Int
deriving Repr, DecidableEq

/-- Go's `image.Rectangle`. -/
structure Rectangle where
  Min : Point
  Max : Point
deriving Repr, DecidableEq

/-- Go's `image.Image`, reduced to the two methods the analysed code uses:
`Bounds()` and `At(x,y).RGBA()`. -/
structure Image where
  Bounds : Rectangle
  At : Int → Int → RGBAQuad

/-- The `color.Color` contract: `RGBA()` returns channels in `[0, 0xFFFF]`.
Every colour produced by the standard decoders satisfies this. -/
def Image.Wf (img : Image) : Prop :=
  ∀ x y : Int, (img.At x y).r ≤ 0xFFFF ∧ (img.At x y).g ≤ 0xFFFF ∧
    (img.At x y).b ≤ 0xFFFF ∧ (img.At x y).a ≤ 0xFFFF

/-- The pixels `calcAvg` visits: `x` from `rect.Min.X` while `< rect.Max.X`
(outer loop), `y` from `rect.Min.Y` while `< rect.Max.Y` (inner loop). -/
def pixelsIn (img : Image) (rect : Rectangle) : List RGBAQuad :=
  (List.range (rect.Max.X - rect.Min.X).toNat).flatMap fun i =>
    (List.range (rect.Max.Y - rect.Min.Y).toNat).map fun j =>
      img.At (rect.Min.X + i) (rect.Min.Y + j)

/-- `calcAvg` from the source: sums each channel of `img.At(x,y).RGBA()`
over the rectangle into `int64` accumulators, counts the pixels in
`iteration`, and returns `color.RGBA64{uint16(r/iteration), ..., 0xFFFF}`.
When the rectangle is empty, `iteration` is `0` and the Go division
panics — modelled as `none`. -/
def calcAvg (img : Image) (rect : Rectangle) : Option RGBA64 :=
  let ps := pixelsIn img rect
  let r := (ps.map (fun c => c.r)).sum
  let g := (ps.map (fun c => c.g)).sum
  let b := (ps.map (fun c => c.b)).sum
  let iteration := ps.length
  if iteration = 0 then
    none
  else
    some { R := r / iteration % 65536, G := g / iteration % 65536,
           B := b / iteration % 65536, A := 0xFFFF }

/-- Go's `color.nrgbaModel` applied to an `RGBA64` value `c` (the
`c.RGBA()` call widens the four `uint16` fields unchanged). -/
def nrgbaModel (c : RGBA64) : NRGBA :=
  if c.A = 0xffff then
    ⟨c.R >>> 8 % 256, c.G >>> 8 % 256, c.B >>> 8 % 256, 0xff⟩
  else if c.A = 0 then
    ⟨0, 0, 0, 0⟩
  else
    ⟨c.R * 0xffff / c.A >>> 8 % 256, c.G * 0xffff / c.A >>> 8 % 256,
     c.B * 0xffff / c.A >>> 8 % 256, c.A >>> 8 % 256⟩

/-- Go's `color.NRGBA.RGBA()`:
`r = uint32(c.R); r |= r << 8; r *= uint32(c.A); r /= 0xff` — no `uint32`
wraparound is possible since the fields are `uint8` values. -/
def NRGBA.RGBA (c : NRGBA) : RGBAQuad :=
  ⟨(c.R ||| c.R <<< 8) * c.A / 0xff,
   (c.G ||| c.G <<< 8) * c.A / 0xff,
   (c.B ||| c.B <<< 8) * c.A / 0xff,
   (c.A ||| c.A <<< 8) * c.A / 0xff⟩

/-- Go's `strings.HasSuffix`, on the character list of the string. -/
def hasSuffix (s suffix : String) : Bool :=
  suffix.data.isSuffixOf s.data

/-- The classified errors `openImage` can produce, tagged by the source
expression that produced them: the `os.Open` error, a decoder error, or the
`fmt.Errorf("unrecognized image format for file '%s'", ff)` value. -/
inductive ImgError where
  | ioErr (msg : String)
  | decodeErr (msg : String)
  | unsupportedFormat (path : String)
deriving Repr, DecidableEq

/-- The external collaborators of `openImage`: the outcome of `os.Open` on
a path, and of `png.Decode` / `jpeg.Decode` on the opened file at a path. -/
structure FileSystem where
  openFile : String → Except String Unit
  decodePng : String → Except String Image
  decodeJpg : String → Except String Image

/-- `openImage` from the source: open the file (returning the I/O error on
failure), then dispatch on the case-sensitive filename suffix: `.png` →
`png.Decode`, `.jpg` → `jpeg.Decode`, anything else → the "unrecognized
image format" error; a decoder error is returned as such. -/
def openImage (fs : FileSystem) (ff : String) : Except ImgError Image :=
  match fs.openFile ff with
  | .error e => .error (.ioErr e)
  | .ok _ =>
    if hasSuffix ff ".png" then
      match fs.decodePng ff with
      | .error e => .error (.decodeErr e)
      | .ok img => .ok img
    else if hasSuffix ff ".jpg" then
      match fs.decodeJpg ff with
      | .error e => .error (.decodeErr e)
      | .ok img => .ok img
    else
      .error (.unsupportedFormat ff)

/-- Go's `imageInfo` struct: the `uint32` colour fields start at their zero
value, and `err` (a Go `error`, `nil` or not) is an `Option`. -/
structure imageInfo where
  Path : String
  Red : Nat
  Green : Nat
  Blue : Nat
  Alpha : Nat
  err : Option ImgError
deriving Repr, DecidableEq

/-- The body of `worker`'s `for path := range c` loop for one received
path: build a zero-valued `imageInfo`, set its `Path`; on `openImage`
failure set `err`; on success run `calcAvg` over the full bounds, convert
through `color.NRGBAModel`, and set `Red`, `Green`, `Blue` (the code never
sets `Alpha`).  A `none` result is the division-by-zero panic inside
`calcAvg` (only reachable if a decoder produced an empty image). -/
def workerStep (fs : FileSystem) (path : String) : Option imageInfo :=
  match openImage fs path with
  | .error e =>
    some { Path := path, Red := 0, Green := 0, Blue := 0, Alpha := 0, err := some e }
  | .ok img =>
    match calcAvg img img.Bounds with
    | none => none
    | some avg =>
      let q := (nrgbaModel avg).RGBA
      some { Path := path, Red := q.r, Green := q.g, Blue := q.b, Alpha := 0, err := none }

/-- `worker` over the sequence of paths it receives from the channel: one
result is sent per path, and the loop only ends when the channel is closed
and drained (the `[]` case).  `none` propagates a `workerStep` panic. -/
def worker (fs : FileSystem) : List String → Option (List imageInfo)
  | [] => some []
  | path :: rest =>
    (workerStep fs path).bind fun info =>
      (worker fs rest).bind fun out => some (info :: out)

/-- The `container` struct local to `analyzeFiles`. -/
structure container where
  Info : List imageInfo
deriving Repr, DecidableEq

/-- The body of the collecting goroutine of `analyzeFiles`, folded over the
`len(files)` results it receives (in race-determined arrival order): a
result with `err ≠ nil` is printed and dropped, any other is appended to
the container. -/
def collectLoop (received : List imageInfo) : container :=
  received.foldl
    (fun cont info => if info.err.isSome then cont else ⟨cont.Info ++ [info]⟩) ⟨[]⟩

/-- The failures the collecting loop surfaces (one `fmt.Println(info.err)`
per received result whose `err` is non-nil). -/
def failuresObserved (received : List imageInfo) : Nat :=
  (received.filter (fun info => info.err.isSome)).length

/-- The observable outcome of `analyzeFiles` once the collecting loop has
received its `len(files)` results: the accumulated container and the
number of failures it printed.  `received` is the arrival order at the
collector, constrained in the theorems to be a permutation of the
per-path worker results of the input list (the only nondeterminism the
fan-out/fan-in introduces).  The JSON serialization that follows is
external I/O and is not modelled. -/
def analyzeFiles (received : List imageInfo) : container × Nat :=
  (collectLoop received, failuresObserved received)

/-- The paths of an input list that fail to load: `openImage` returns an
error for them (unreadable, unsupported suffix, or corrupt). -/
def failsToLoad (fs : FileSystem) (path : String) : Bool :=
  match openImage fs path with
  | .error _ => true
  | .ok _ => false

/-- Decoded-image well-formedness guaranteed by Go's `png`/`jpeg`
decoders: a successfully decoded image has positive width and height (both
decoders reject non-positive dimensions) and honours the `color.Color`
channel contract. -/
def FileSystem.Wf (fs : FileSystem) : Prop :=
  ∀ path img, (fs.decodePng path = .ok img ∨ fs.decodeJpg path = .ok img) →
    (img.Bounds.Min.X < img.Bounds.Max.X ∧ img.Bounds.Min.Y < img.Bounds.Max.Y) ∧ img.Wf

/-! ### Concrete fixtures (used by the witness theorems) -/

/-- A 2×1 image whose pixels are the 16-bit rendering of RGB(10,20,30),
as an 8-bit PNG of that solid colour decodes (`v16 = v8 * 0x101`). -/
def imgA : Image :=
  { Bounds := ⟨⟨0, 0⟩, ⟨2, 1⟩⟩, At := fun _ _ => ⟨2570, 5140, 7710, 0xFFFF⟩ }

/-- A 1×2 image whose pixels are the 16-bit rendering of RGB(200,100,50). -/
def imgB : Image :=
  { Bounds := ⟨⟨0, 0⟩, ⟨1, 2⟩⟩, At := fun _ _ => ⟨51400, 25700, 12850, 0xFFFF⟩ }

/-- A filesystem with a decodable `a.png`, a decodable `b.jpg`, and a
`missing.png` that cannot be opened; decoding any other path fails. -/
def fsA : FileSystem :=
  { openFile := fun p => if p = "missing.png" then .error "no such file" else .ok ()
    decodePng := fun p => if p = "a.png" then .ok imgA else .error "png: invalid format"
    decodeJpg := fun p => if p = "b.jpg" then .ok imgB else .error "jpg: invalid format" }

theorem imgA_wf : imgA.Wf := by
  intro x y
  refine ⟨?_, ?_, ?_, ?_⟩ <;> simp [imgA]

theorem imgB_wf : imgB.Wf := by
  intro x y
  refine ⟨?_, ?_, ?_, ?_⟩ <;> simp [imgB]

theorem fsA_wf : fsA.Wf := by
  intro path img h
  rcases h with h | h
  · by_cases hp : path = "a.png"
    · simp only [fsA, hp, if_pos rfl] at h
      cases h
      exact ⟨⟨by norm_num [imgA], by norm_num [imgA]⟩, imgA_wf⟩
    · simp [fsA, hp] at h
  · by_cases hp : path = "b.jpg"
    · simp only [fsA, hp, if_pos rfl] at h
      cases h
      exact ⟨⟨by norm_num [imgB], by norm_num [imgB]⟩, imgB_wf⟩
    · simp [fsA, hp] at h

/-! ### Helper lemmas -/

theorem pixelsIn_length (img : Image) (rect : Rectangle) :
    (pixelsIn img rect).length =
      (rect.Max.X - rect.Min.X).toNat * (rect.Max.Y - rect.Min.Y).toNat := by
  simp [pixelsIn, Function.comp_def]

theorem mem_pixelsIn {img : Image} {rect : Rectangle} {q : RGBAQuad}
    (h : q ∈ pixelsIn img rect) : ∃ x y, q = img.At x y := by
  simp only [pixelsIn, List.mem_flatMap, List.mem_map, List.mem_range] at h
  obtain ⟨i, -, j, -, rfl⟩ := h
  exact ⟨_, _, rfl⟩

theorem pixelCount_pos {rect : Rectangle} (img : Image)
    (hx : rect.Min.X < rect.Max.X) (hy : rect.Min.Y < rect.Max.Y) :
    0 < (pixelsIn img rect).length := by
  rw [pixelsIn_length]
  have h1 : 0 < (rect.Max.X - rect.Min.X).toNat := by omega
  have h2 : 0 < (rect.Max.Y - rect.Min.Y).toNat := by omega
  exact Nat.mul_pos h1 h2

theorem calcAvg_of_pos {img : Image} {rect : Rectangle}
    (h : (pixelsIn img rect).length ≠ 0) :
    calcAvg img rect =
      some { R := ((pixelsIn img rect).map (fun c => c.r)).sum / (pixelsIn img rect).length % 65536,
             G := ((pixelsIn img rect).map (fun c => c.g)).sum / (pixelsIn img rect).length % 65536,
             B := ((pixelsIn img rect).map (fun c => c.b)).sum / (pixelsIn img rect).length % 65536,
             A := 0xFFFF } := by
  simp only [calcAvg, if_neg h]

theorem nat_sum_le (l : List Nat) (n : Nat) (h : ∀ x ∈ l, x ≤ n) :
    l.sum ≤ l.length * n := by
  simpa [smul_eq_mul] using List.sum_le_card_nsmul l n h

theorem nat_div_le {s len n : Nat} (hlen : 0 < len) (h : s ≤ len * n) : s / len ≤ n := by
  calc s / len ≤ len * n / len := Nat.div_le_div_right h
  _ = n := Nat.mul_div_cancel_left n hlen

theorem openImage_ok_decode {fs : FileSystem} {ff : String} {img : Image}
    (h : openImage fs ff = .ok img) :
    fs.decodePng ff = .ok img ∨ fs.decodeJpg ff = .ok img := by
  cases ho : fs.openFile ff with
  | error e => simp [openImage, ho] at h
  | ok u =>
    by_cases hp : hasSuffix ff ".png"
    · cases hd : fs.decodePng ff with
      | error e => simp [openImage, ho, hp, hd] at h
      | ok i =>
        simp only [openImage, ho, if_pos hp, hd, Except.ok.injEq] at h
        subst h; exact .inl rfl
    · by_cases hj : hasSuffix ff ".jpg"
      · cases hd : fs.decodeJpg ff with
        | error e => simp [openImage, ho, hp, hj, hd] at h
        | ok i =>
          simp only [openImage, ho, if_neg hp, if_pos hj, hd, Except.ok.injEq] at h
          subst h; exact .inr rfl
      · simp [openImage, ho, hp, hj] at h

theorem workerStep_of_error {fs : FileSystem} {path : String} {e : ImgError}
    (h : openImage fs path = .error e) :
    workerStep fs path =
      some { Path := path, Red := 0, Green := 0, Blue := 0, Alpha := 0, err := some e } := by
  simp [workerStep, h]

theorem workerStep_of_ok {fs : FileSystem} {path : String} {img : Image} {avg : RGBA64}
    (h : openImage fs path = .ok img) (hc : calcAvg img img.Bounds = some avg) :
    workerStep fs path =
      some { Path := path, Red := ((nrgbaModel avg).RGBA).r,
             Green := ((nrgbaModel avg).RGBA).g, Blue := ((nrgbaModel avg).RGBA).b,
             Alpha := 0, err := none } := by
  simp [workerStep, h, hc]

theorem workerStep_of_panic {fs : FileSystem} {path : String} {img : Image}
    (h : openImage fs path = .ok img) (hc : calcAvg img img.Bounds = none) :
    workerStep fs path = none := by
  simp [workerStep, h, hc]

theorem workerStep_err {fs : FileSystem} {path : String} {info : imageInfo}
    (h : workerStep fs path = some info) :
    info.err.isSome = failsToLoad fs path := by
  cases ho : openImage fs path with
  | error e =>
    rw [workerStep_of_error ho] at h
    cases h
    simp [failsToLoad, ho]
  | ok img =>
    cases hc : calcAvg img img.Bounds with
    | none => rw [workerStep_of_panic ho hc] at h; cases h
    | some avg =>
      rw [workerStep_of_ok ho hc] at h
      cases h
      simp [failsToLoad, ho]

theorem workerStep_path {fs : FileSystem} {path : String} {info : imageInfo}
    (h : workerStep fs path = some info) : info.Path = path := by
  cases ho : openImage fs path with
  | error e =>
    rw [workerStep_of_error ho] at h
    cases h; rfl
  | ok img =>
    cases hc : calcAvg img img.Bounds with
    | none => rw [workerStep_of_panic ho hc] at h; cases h
    | some avg =>
      rw [workerStep_of_ok ho hc] at h
      cases h; rfl

theorem workerStep_isSome {fs : FileSystem} (hwf : fs.Wf) (path : String) :
    ∃ info, workerStep fs path = some info := by
  cases ho : openImage fs path with
  | error e => exact ⟨_, workerStep_of_error ho⟩
  | ok img =>
    obtain ⟨⟨hx, hy⟩, -⟩ := hwf path img (openImage_ok_decode ho)
    have hpos := @pixelCount_pos img.Bounds img hx hy
    exact ⟨_, workerStep_of_ok ho (calcAvg_of_pos (Nat.pos_iff_ne_zero.mp hpos))⟩

theorem worker_length {fs : FileSystem} :
    ∀ {files : List String} {rs : List imageInfo},
      worker fs files = some rs → rs.length = files.length := by
  intro files
  induction files with
  | nil =>
    intro rs h
    cases h; rfl
  | cons p rest ih =>
    intro rs h
    simp only [worker, Option.bind_eq_some, Option.some.injEq] at h
    obtain ⟨info, -, out, hout, rfl⟩ := h
    simp [ih hout]

theorem worker_getElem {fs : FileSystem} :
    ∀ {files : List String} {rs : List imageInfo}, worker fs files = some rs →
      ∀ i : Nat, rs[i]? = (files[i]?).bind (workerStep fs) := by
  intro files
  induction files with
  | nil =>
    intro rs h i
    cases h; simp
  | cons p rest ih =>
    intro rs h i
    simp only [worker, Option.bind_eq_some, Option.some.injEq] at h
    obtain ⟨info, hinfo, out, hout, rfl⟩ := h
    cases i with
    | zero => simp [hinfo]
    | succ j => simpa using ih hout j

theorem worker_err_count {fs : FileSystem} :
    ∀ {files : List String} {rs : List imageInfo}, worker fs files = some rs →
      (rs.filter (fun info => info.err.isSome)).length
        = (files.filter (failsToLoad fs)).length := by
  intro files
  induction files with
  | nil =>
    intro rs h
    cases h; rfl
  | cons p rest ih =>
    intro rs h
    simp only [worker, Option.bind_eq_some, Option.some.injEq] at h
    obtain ⟨info, hinfo, out, hout, rfl⟩ := h
    rw [List.filter_cons, List.filter_cons, workerStep_err hinfo]
    cases failsToLoad fs p <;> simp [ih hout]

theorem collectLoop_go (received : List imageInfo) (acc : List imageInfo) :
    (received.foldl
        (fun (cont : container) (info : imageInfo) =>
          if info.err.isSome then cont else ⟨cont.Info ++ [info]⟩)
        ⟨acc⟩).Info
      = acc ++ received.filter (fun info => info.err.isNone) := by
  induction received generalizing acc with
  | nil => simp
  | cons info rest ih =>
    cases h : info.err with
    | none => simp [List.foldl_cons, h, ih, List.filter_cons]
    | some e => simp [List.foldl_cons, h, ih, List.filter_cons]

theorem collectLoop_eq_filter (received : List imageInfo) :
    (collectLoop received).Info = received.filter (fun info => info.err.isNone) := by
  simpa [collectLoop] using collectLoop_go received []

theorem entries_add_failures (l : List imageInfo) :
    (l.filter (fun info => info.err.isNone)).length
      + (l.filter (fun info => info.err.isSome)).length = l.length := by
  induction l with
  | nil => rfl
  | cons info rest ih =>
    cases h : info.err <;> simp [List.filter_cons, h] <;> omega

theorem worker_isSome {fs : FileSystem} (hwf : fs.Wf) :
    ∀ files : List String, ∃ rs, worker fs files = some rs := by
  intro files
  induction files with
  | nil => exact ⟨[], rfl⟩
  | cons p rest ih =>
    obtain ⟨info, hinfo⟩ := workerStep_isSome hwf p
    obtain ⟨out, hout⟩ := ih
    exact ⟨info :: out, by simp [worker, hinfo, hout]⟩

/-! ### Fixed inputs for the witness theorems -/

def wfilesA : List String := ["a.png", "b.jpg", "missing.png"]

/-- The worker result for `a.png` (its 8-bit average RGB(10,20,30) is
stored at 16-bit scale by the NRGBA round trip, `v8 * 0x101`). -/
def infoA : imageInfo :=
  { Path := "a.png", Red := 2570, Green := 5140, Blue := 7710, Alpha := 0, err := none }

/-- The worker result for `b.jpg`. -/
def infoB : imageInfo :=
  { Path := "b.jpg", Red := 51400, Green := 25700, Blue := 12850, Alpha := 0, err := none }

/-- The worker result for `missing.png`: the I/O error, zero colour. -/
def infoM : imageInfo :=
  { Path := "missing.png", Red := 0, Green := 0, Blue := 0, Alpha := 0,
    err := some (.ioErr "no such file") }

/-- The per-path results of `wfilesA`, in input order. -/
def wrsA : List imageInfo := [infoA, infoB, infoM]

/-- One race-determined arrival order of those results at the collector. -/
def wrecvA : List imageInfo := [infoM, infoA, infoB]

/-! ### The claims -/

/-- C1: once the collecting loop of `analyzeFiles` has received its
`len(files)` results (a race-determined permutation of the per-path worker
results), every received result was either appended as an entry (exactly
the error-free ones) or surfaced as a failure, and the number of entries
plus the number of observed failures equals `len(files)` exactly. -/
theorem analyzeFiles_entries_add_failures (fs : FileSystem) (files : List String)
    (rs received : List imageInfo) (hw : worker fs files = some rs)
    (hp : received.Perm rs) :
    (analyzeFiles received).1.Info.length + (analyzeFiles received).2 = files.length ∧
    ∀ info ∈ received, (info ∈ (analyzeFiles received).1.Info ↔ info.err = none) := by
  constructor
  · have hlen : received.length = files.length := hp.length_eq.trans (worker_length hw)
    show (collectLoop received).Info.length + failuresObserved received = files.length
    rw [collectLoop_eq_filter, failuresObserved, entries_add_failures]
    exact hlen
  · intro info hmem
    show info ∈ (collectLoop received).Info ↔ info.err = none
    rw [collectLoop_eq_filter]
    simp [List.mem_filter, hmem, Option.isNone_iff_eq_none]

/-- C1 witness: the three-file run `[a.png, b.jpg, missing.png]` with
arrival order `[missing, a, b]`. -/
theorem analyzeFiles_entries_add_failures_witness :
    (analyzeFiles wrecvA).1.Info.length + (analyzeFiles wrecvA).2 = wfilesA.length :=
  (analyzeFiles_entries_add_failures fsA wfilesA wrsA wrecvA (by decide) (by decide)).1

/-- C2: a worker sends exactly one result per received path — the result
at position `i` is precisely `workerStep` of the path at position `i`, so
never zero and never two — a failing path yields its own error-carrying
result (with its path, and `err` set exactly when the load failed) while
the worker proceeds to the remaining paths, and the loop returns only
once the received sequence is exhausted. -/
theorem worker_one_result_per_path (fs : FileSystem) (hwf : fs.Wf) (files : List String) :
    ∃ rs, worker fs files = some rs ∧ rs.length = files.length ∧
      (∀ i : Nat, rs[i]? = (files[i]?).bind (workerStep fs)) ∧
      (∀ i : Nat, ∀ p, files[i]? = some p →
        ∃ info, rs[i]? = some info ∧ info.Path = p ∧
          info.err.isSome = failsToLoad fs p) := by
  obtain ⟨rs, hw⟩ := worker_isSome hwf files
  refine ⟨rs, hw, worker_length hw, worker_getElem hw, ?_⟩
  intro i p hip
  have hi := worker_getElem hw i
  rw [hip] at hi
  obtain ⟨info, hinfo⟩ := workerStep_isSome hwf p
  refine ⟨info, ?_, workerStep_path hinfo, workerStep_err hinfo⟩
  rw [hi]
  simpa using hinfo

/-- C2 witness: the three-file run, one of whose paths fails to load. -/
theorem worker_one_result_per_path_witness :
    ∃ rs, worker fsA wfilesA = some rs ∧ rs.length = wfilesA.length ∧
      (∀ i : Nat, rs[i]? = (wfilesA[i]?).bind (workerStep fsA)) ∧
      (∀ i : Nat, ∀ p, wfilesA[i]? = some p →
        ∃ info, rs[i]? = some info ∧ info.Path = p ∧
          info.err.isSome = failsToLoad fsA p) :=
  worker_one_result_per_path fsA fsA_wf wfilesA

/-- C3: with `k` the number of input paths that fail to load, the
completed pipeline yields exactly `total - k` entries and exactly `k`
observed failures; the model of the run is a total function, so the run
returns (per-file errors degrade it but never abort it). -/
theorem pipeline_entry_failure_counts (fs : FileSystem) (files : List String)
    (rs received : List imageInfo) (hw : worker fs files = some rs)
    (hp : received.Perm rs) :
    (analyzeFiles received).1.Info.length
        = files.length - (files.filter (failsToLoad fs)).length ∧
    (analyzeFiles received).2 = (files.filter (failsToLoad fs)).length := by
  have hlen : received.length = files.length := hp.length_eq.trans (worker_length hw)
  have hpart := entries_add_failures received
  have hfail : (received.filter (fun info => info.err.isSome)).length
      = (files.filter (failsToLoad fs)).length :=
    (hp.filter _).length_eq.trans (worker_err_count hw)
  constructor
  · show (collectLoop received).Info.length = _
    rw [collectLoop_eq_filter]
    omega
  · show failuresObserved received = _
    rw [failuresObserved]
    exact hfail

/-- C3 witness: three paths of which exactly one (`missing.png`) fails. -/
theorem pipeline_entry_failure_counts_witness :
    (analyzeFiles wrecvA).1.Info.length
        = wfilesA.length - (wfilesA.filter (failsToLoad fsA)).length ∧
    (analyzeFiles wrecvA).2 = (wfilesA.filter (failsToLoad fsA)).length :=
  pipeline_entry_failure_counts fsA wfilesA wrsA wrecvA (by decide) (by decide)

/-- A 1×1 image whose single pixel is the 16-bit rendering of 8-bit
white — exactly what a 1×1 all-white PNG decodes to. -/
def imgWhite : Image :=
  { Bounds := ⟨⟨0, 0⟩, ⟨1, 1⟩⟩, At := fun _ _ => ⟨0xFFFF, 0xFFFF, 0xFFFF, 0xFFFF⟩ }

/-- C4 counterexample: on a 1×1 white image, `calcAvg` over the full
bounds returns a colour whose channels are 65535, outside `[0,255]`: the
function returns a `color.RGBA64`, whose channels are 16-bit means, not
8-bit ones. -/
theorem calcAvg_channels_not_8bit :
    calcAvg imgWhite imgWhite.Bounds = some ⟨65535, 65535, 65535, 65535⟩ ∧
    ¬ (65535 : Nat) ≤ 255 := by
  exact ⟨by decide, by decide⟩

/-- C4 (amended): over a non-empty region of an image honouring the
colour contract, each channel of the colour `calcAvg` returns lies within
`[0, 65535]` and equals the integer-truncated mean of that channel's
16-bit-scale alpha-premultiplied intensity (the value `RGBA()` yields)
over every pixel of the region, and the output alpha channel is fully
opaque (`0xFFFF`). -/
theorem calcAvg_truncated_mean (img : Image) (rect : Rectangle) (hwf : img.Wf)
    (hx : rect.Min.X < rect.Max.X) (hy : rect.Min.Y < rect.Max.Y) :
    calcAvg img rect =
      some { R := ((pixelsIn img rect).map (fun c => c.r)).sum / (pixelsIn img rect).length,
             G := ((pixelsIn img rect).map (fun c => c.g)).sum / (pixelsIn img rect).length,
             B := ((pixelsIn img rect).map (fun c => c.b)).sum / (pixelsIn img rect).length,
             A := 0xFFFF } ∧
    ((pixelsIn img rect).map (fun c => c.r)).sum / (pixelsIn img rect).length ≤ 0xFFFF ∧
    ((pixelsIn img rect).map (fun c => c.g)).sum / (pixelsIn img rect).length ≤ 0xFFFF ∧
    ((pixelsIn img rect).map (fun c => c.b)).sum / (pixelsIn img rect).length ≤ 0xFFFF := by
  have hpos := pixelCount_pos img hx hy
  have bound : ∀ f : RGBAQuad → Nat, (∀ x y : Int, f (img.At x y) ≤ 0xFFFF) →
      ((pixelsIn img rect).map f).sum / (pixelsIn img rect).length ≤ 0xFFFF := by
    intro f hf
    apply nat_div_le hpos
    have hsum := nat_sum_le ((pixelsIn img rect).map f) 0xFFFF ?_
    · simpa using hsum
    · intro x hxm
      simp only [List.mem_map] at hxm
      obtain ⟨q, hq, rfl⟩ := hxm
      obtain ⟨a, b, rfl⟩ := mem_pixelsIn hq
      exact hf a b
  have hr := bound (fun c => c.r) (fun a b => (hwf a b).1)
  have hg := bound (fun c => c.g) (fun a b => (hwf a b).2.1)
  have hb := bound (fun c => c.b) (fun a b => (hwf a b).2.2.1)
  refine ⟨?_, hr, hg, hb⟩
  rw [calcAvg_of_pos (Nat.pos_iff_ne_zero.mp hpos)]
  rw [Nat.mod_eq_of_lt (by omega), Nat.mod_eq_of_lt (by omega),
    Nat.mod_eq_of_lt (by omega)]

/-- C4 (amended) witness: the 2×1 solid-colour image `imgA`. -/
theorem calcAvg_truncated_mean_witness :
    calcAvg imgA imgA.Bounds =
      some { R := ((pixelsIn imgA imgA.Bounds).map (fun c => c.r)).sum
                    / (pixelsIn imgA imgA.Bounds).length,
             G := ((pixelsIn imgA imgA.Bounds).map (fun c => c.g)).sum
                    / (pixelsIn imgA imgA.Bounds).length,
             B := ((pixelsIn imgA imgA.Bounds).map (fun c => c.b)).sum
                    / (pixelsIn imgA imgA.Bounds).length,
             A := 0xFFFF } ∧
    ((pixelsIn imgA imgA.Bounds).map (fun c => c.r)).sum
        / (pixelsIn imgA imgA.Bounds).length ≤ 0xFFFF ∧
    ((pixelsIn imgA imgA.Bounds).map (fun c => c.g)).sum
        / (pixelsIn imgA imgA.Bounds).length ≤ 0xFFFF ∧
    ((pixelsIn imgA imgA.Bounds).map (fun c => c.b)).sum
        / (pixelsIn imgA imgA.Bounds).length ≤ 0xFFFF :=
  calcAvg_truncated_mean imgA imgA.Bounds imgA_wf (by decide) (by decide)

/-- C5: every result a worker hands to the collector has failure and
colour mutually exclusive: either `err` is set — the load failed and the
colour fields are still their zero values — or `err` is nil and the
colour fields hold the analyzer output; never both. -/
theorem workerStep_failure_xor_color (fs : FileSystem) (path : String) (info : imageInfo)
    (h : workerStep fs path = some info) :
    Xor'
      (∃ e, info.err = some e ∧ openImage fs path = .error e ∧
        info.Red = 0 ∧ info.Green = 0 ∧ info.Blue = 0)
      (info.err = none ∧ ∃ img avg, openImage fs path = .ok img ∧
        calcAvg img img.Bounds = some avg ∧
        info.Red = ((nrgbaModel avg).RGBA).r ∧
        info.Green = ((nrgbaModel avg).RGBA).g ∧
        info.Blue = ((nrgbaModel avg).RGBA).b) := by
  cases ho : openImage fs path with
  | error e =>
    rw [workerStep_of_error ho] at h
    cases h
    left
    refine ⟨⟨e, rfl, rfl, rfl, rfl, rfl⟩, ?_⟩
    rintro ⟨hnone, -⟩
    simp at hnone
  | ok img =>
    cases hc : calcAvg img img.Bounds with
    | none => rw [workerStep_of_panic ho hc] at h; cases h
    | some avg =>
      rw [workerStep_of_ok ho hc] at h
      cases h
      right
      refine ⟨⟨rfl, img, avg, rfl, hc, rfl, rfl, rfl⟩, ?_⟩
      rintro ⟨e, he, -⟩
      simp at he

/-- C5 witness: the failing path `missing.png` on the concrete run. -/
theorem workerStep_failure_xor_color_witness :
    Xor'
      (∃ e, infoM.err = some e ∧ openImage fsA "missing.png" = .error e ∧
        infoM.Red = 0 ∧ infoM.Green = 0 ∧ infoM.Blue = 0)
      (infoM.err = none ∧ ∃ img avg, openImage fsA "missing.png" = .ok img ∧
        calcAvg img img.Bounds = some avg ∧
        infoM.Red = ((nrgbaModel avg).RGBA).r ∧
        infoM.Green = ((nrgbaModel avg).RGBA).g ∧
        infoM.Blue = ((nrgbaModel avg).RGBA).b) :=
  workerStep_failure_xor_color fsA "missing.png" infoM (by decide)

/-- C6: when the region is non-empty (positive width and height) the
pixel count `calcAvg` divides by is strictly positive, so the division is
well-defined and the division-by-zero failure is unreachable. -/
theorem calcAvg_nonempty_region_safe (img : Image) (rect : Rectangle)
    (hx : rect.Min.X < rect.Max.X) (hy : rect.Min.Y < rect.Max.Y) :
    0 < (pixelsIn img rect).length ∧ (calcAvg img rect).isSome := by
  have hpos := pixelCount_pos img hx hy
  exact ⟨hpos, by rw [calcAvg_of_pos (Nat.pos_iff_ne_zero.mp hpos)]; rfl⟩

/-- C6 witness: the non-empty bounds of `imgA`. -/
theorem calcAvg_nonempty_region_safe_witness :
    0 < (pixelsIn imgA imgA.Bounds).length ∧ (calcAvg imgA imgA.Bounds).isSome :=
  calcAvg_nonempty_region_safe imgA imgA.Bounds (by decide) (by decide)

/-- Recognizer for the unsupported-format error case. -/
def ImgError.isUnsupported : ImgError → Bool
  | .unsupportedFormat _ => true
  | _ => false

/-- A filesystem on which no path can be opened. -/
def fsUnopenable : FileSystem :=
  { openFile := fun _ => .error "open: no such file or directory"
    decodePng := fun _ => .error "png: invalid format"
    decodeJpg := fun _ => .error "jpg: invalid format" }

/-- C7 counterexample: `a.txt` has a suffix matching neither `.png` nor
`.jpg`, yet when the path cannot be opened `openImage` returns the I/O
error, not `UnsupportedFormat` — the claim's universal statement fails on
unopenable paths. -/
theorem openImage_unsupported_counterexample :
    hasSuffix "a.txt" ".png" = false ∧ hasSuffix "a.txt" ".jpg" = false ∧
    openImage fsUnopenable "a.txt" = .error (.ioErr "open: no such file or directory") ∧
    (ImgError.ioErr "open: no such file or directory").isUnsupported = false := by
  exact ⟨by decide, by decide, rfl, rfl⟩

/-- C7 (amended): for every path that can be opened and whose suffix
matches neither `.png` nor `.jpg` case-sensitively (so e.g. `.PNG` is not
recognized), `openImage` fails with the unsupported-format error and
returns no image; an unopenable path yields the I/O error instead. -/
theorem openImage_unsupported_format (fs : FileSystem) (ff : String)
    (hopen : fs.openFile ff = .ok ()) (hpng : hasSuffix ff ".png" = false)
    (hjpg : hasSuffix ff ".jpg" = false) :
    openImage fs ff = .error (.unsupportedFormat ff) := by
  simp [openImage, hopen, hpng, hjpg]

/-- C7 (amended) witness: an openable path ending in uppercase `.PNG` is
not recognized. -/
theorem openImage_unsupported_format_witness :
    openImage fsA "img.PNG" = .error (.unsupportedFormat "img.PNG") :=
  openImage_unsupported_format fsA "img.PNG" rfl (by decide) (by decide)

/-- C8: an empty input list is legal: the collector receives zero
results, and the run yields an empty container with zero failures. -/
theorem analyzeFiles_empty_input (fs : FileSystem) (rs received : List imageInfo)
    (hw : worker fs [] = some rs) (hp : received.Perm rs) :
    received = [] ∧ (analyzeFiles received).1.Info = [] ∧ (analyzeFiles received).2 = 0 := by
  cases hw
  have hnil : received = [] := hp.eq_nil
  subst hnil
  exact ⟨rfl, rfl, rfl⟩

/-- C8 witness: the pipeline on zero paths. -/
theorem analyzeFiles_empty_input_witness :
    ([] : List imageInfo) = [] ∧ (analyzeFiles []).1.Info = [] ∧ (analyzeFiles []).2 = 0 :=
  analyzeFiles_empty_input fsA [] [] rfl (List.Perm.refl _)

/-- C9: `calcAvg` is a pure function — two invocations on the same input
yield the same colour — and two completed runs of the pipeline over the
same files (each with its own race-determined arrival order) produce the
same multiset of entries, i.e. identical (path, colour) records up to
order, and the same failure count. -/
theorem pipeline_deterministic (fs : FileSystem) (files : List String)
    (rs r1 r2 : List imageInfo) (_hw : worker fs files = some rs)
    (h1 : r1.Perm rs) (h2 : r2.Perm rs) :
    (∀ img rect, calcAvg img rect = calcAvg img rect) ∧
    ((analyzeFiles r1).1.Info).Perm ((analyzeFiles r2).1.Info) ∧
    (analyzeFiles r1).2 = (analyzeFiles r2).2 := by
  refine ⟨fun _ _ => rfl, ?_, ?_⟩
  · show ((collectLoop r1).Info).Perm (collectLoop r2).Info
    rw [collectLoop_eq_filter, collectLoop_eq_filter]
    exact (h1.trans h2.symm).filter _
  · show failuresObserved r1 = failuresObserved r2
    rw [failuresObserved, failuresObserved]
    exact ((h1.trans h2.symm).filter _).length_eq

/-- C9 witness: two runs of the concrete three-file pipeline with
different arrival orders. -/
theorem pipeline_deterministic_witness :
    (∀ img rect, calcAvg img rect = calcAvg img rect) ∧
    ((analyzeFiles wrsA).1.Info).Perm ((analyzeFiles wrecvA).1.Info) ∧
    (analyzeFiles wrsA).2 = (analyzeFiles wrecvA).2 :=
  pipeline_deterministic fsA wfilesA wrsA wrsA wrecvA (by decide)
    (List.Perm.refl _) (by decide)

/-- C10: the open failure is checked before the suffix is examined: a
path that cannot be opened yields the I/O error whatever its suffix, and
the unsupported-format error is only produced for successfully opened
files (and always names the opened path). -/
theorem openImage_io_error_precedence (fs : FileSystem) (ff : String) :
    (∀ e, fs.openFile ff = .error e → openImage fs ff = .error (.ioErr e)) ∧
    (∀ p, openImage fs ff = .error (.unsupportedFormat p) →
      fs.openFile ff = .ok () ∧ p = ff) := by
  constructor
  · intro e he
    simp [openImage, he]
  · intro p hp
    cases ho : fs.openFile ff with
    | error e => simp [openImage, ho] at hp
    | ok u =>
      cases u
      refine ⟨rfl, ?_⟩
      by_cases hpng : hasSuffix ff ".png"
      · cases hd : fs.decodePng ff with
        | error e => simp [openImage, ho, hpng, hd] at hp
        | ok i => simp [openImage, ho, hpng, hd] at hp
      · by_cases hjpg : hasSuffix ff ".jpg"
        · cases hd : fs.decodeJpg ff with
          | error e => simp [openImage, ho, hpng, hjpg, hd] at hp
          | ok i => simp [openImage, ho, hpng, hjpg, hd] at hp
        · simp only [openImage, ho, Bool.false_eq_true, if_neg hpng, if_neg hjpg,
            Except.error.injEq, ImgError.unsupportedFormat.injEq] at hp
          exact hp.symm

/-- C10 witness: the unopenable `missing.png` yields the I/O error even
though its suffix is recognized-independent of openability. -/
theorem openImage_io_error_precedence_witness :
    openImage fsA "missing.png" = .error (.ioErr "no such file") :=
  (openImage_io_error_precedence fsA "missing.png").1 "no such file" rfl
